import Mathlib

/-!
Verification development for the codex-alfred turn-execution engine.

The definitions below are a shallow embedding of the TypeScript core:
  * `src/slack/threadWork.ts`   — per-thread work coordination (`ThreadWorkManager`),
  * `src/slack/attachmentResolver.ts` — attachment resolution and staging,
  * `src/slack/codexResponder.ts` — the bounded-retry turn executor,
  * `src/slack/mentionHandler.ts` — queued-mention coalescing (`flushQueuedMentions`).

JavaScript values that matter to the embedded control flow (JSON payloads,
truthiness, `Error` objects, string operations) are modelled explicitly.
File-system, container and chat-API effects are modelled by explicit state
threading and by environment records supplying the collaborator outcomes.
All host directories handed to the path model are absolute POSIX paths, which
matches how the configuration supplies `workDir`/`dataDir`.
-/

namespace Alfred

/-- A JSON value as produced by `JSON.parse` of agent output.  There is no
`undefined` constructor: an absent object field models `undefined`. -/
inductive JsonVal where
  | null : JsonVal
  | bool : Bool → JsonVal
  | num : Int → JsonVal
  | str : String → JsonVal
  | arr : List JsonVal → JsonVal
  | obj : List (String × JsonVal) → JsonVal
deriving Repr

/-- JavaScript truthiness of a (non-`undefined`) JSON value. -/
def jsTruthy : JsonVal → Bool
  | .null => false
  | .bool b => b
  | .num n => n != 0
  | .str s => s != ""
  | .arr _ => true
  | .obj _ => true

/-- Field access on a JS object: `none` models `undefined`. -/
def getField (fields : List (String × JsonVal)) (key : String) : Option JsonVal :=
  (fields.find? (fun p => p.1 = key)).map (fun p => p.2)

/-- `FileAttachment` from `attachmentResolver.ts`: `{path, filename?, title?}`. -/
structure FileAttachment where
  path : String
  filename : Option String := none
  title : Option String := none
deriving Repr, DecidableEq

/-- `BlockKitMessage` as used by the responder: required `text` and `blocks`,
optional `attachments`. `blocks` is kept opaque beyond being a JSON array. -/
structure BlockKitMessage where
  text : String
  blocks : List JsonVal
  attachments : Option (List FileAttachment) := none

/-- One element of the `attachments` array in `coerceBlockKitMessage`
(`codexResponder.ts`): must be an object, `path` must be a string, and
`filename`/`title` must be strings when present. -/
def coerceAttachmentItem : JsonVal → Option FileAttachment
  | .obj fields =>
    match getField fields "path" with
    | some (.str p) =>
      match getField fields "filename" with
      | some (.str f) =>
        match getField fields "title" with
        | some (.str t) => some { path := p, filename := some f, title := some t }
        | none => some { path := p, filename := some f, title := none }
        | some _ => none
      | none =>
        match getField fields "title" with
        | some (.str t) => some { path := p, filename := none, title := some t }
        | none => some { path := p, filename := none, title := none }
        | some _ => none
      | some _ => none
    | _ => none
  | _ => none

/-- The `for (const item of candidate.attachments)` loop of
`coerceBlockKitMessage`: every element must coerce. -/
def coerceAttachmentList : List JsonVal → Option (List FileAttachment)
  | [] => some []
  | x :: rest =>
    match coerceAttachmentItem x with
    | none => none
    | some a => (coerceAttachmentList rest).map (fun as => a :: as)

/-- `coerceBlockKitMessage` from `codexResponder.ts`.  Rejects non-objects,
non-string `text`, non-array `blocks`, and any ill-shaped `attachments`
entry; accepts otherwise.  (A JS array reaching this function fails the
`text` lookup, so only the object constructor can succeed.) -/
def coerceBlockKitMessage : JsonVal → Option BlockKitMessage
  | .obj fields =>
    match getField fields "text" with
    | some (.str t) =>
      match getField fields "blocks" with
      | some (.arr bs) =>
        match getField fields "attachments" with
        | none => some { text := t, blocks := bs }
        | some (.arr items) =>
          (coerceAttachmentList items).map
            (fun as => { text := t, blocks := bs, attachments := some as })
        | some _ => none
      | _ => none
    | _ => none
  | _ => none

/-! ## String utilities

Kernel-friendly reimplementations of the JavaScript / node string operations
the embedded code uses, defined over `String.data` character lists. -/

/-- Split a character list at every occurrence of `sep` (like `s.split(sep)`);
keeps empty groups, so splitting "/a//b" on the slash gives four groups with two empty ones. -/
def splitChar (sep : Char) : List Char → List (List Char)
  | [] => [[]]
  | c :: rest =>
    if c = sep then [] :: splitChar sep rest
    else
      match splitChar sep rest with
      | g :: gs => (c :: g) :: gs
      | [] => [[c]]

/-- Split a string on `/` into path segments. -/
def splitSlash (s : String) : List String :=
  (splitChar '/' s.data).map String.mk

/-- `pre.isPrefixOf s` on strings. -/
def strStartsWith (s pre : String) : Bool :=
  pre.data.isPrefixOf s.data

/-- Whether `needle` occurs as a prefix of `hay` (character lists). -/
def isSubstrAt : List Char → List Char → Bool
  | [], _ => true
  | _ :: _, [] => false
  | a :: as, b :: bs => a = b && isSubstrAt as bs

/-- Whether `needle` occurs anywhere in `hay` (character lists). -/
def subStr (needle : List Char) : List Char → Bool
  | [] => isSubstrAt needle []
  | c :: rest => isSubstrAt needle (c :: rest) || subStr needle rest

/-- JS `hay.includes(needle)`: substring containment. -/
def containsStr (hay needle : String) : Bool :=
  subStr needle.data hay.data

/-- Whitespace for JS `String.prototype.trim`. -/
def isJsWs (c : Char) : Bool :=
  c = ' ' || c = '\t' || c = '\n' || c = '\r'

/-- JS `s.trim()`. -/
def jsTrim (s : String) : String :=
  String.mk (((s.data.dropWhile isJsWs).reverse.dropWhile isJsWs).reverse)

/-- JS `s.toLowerCase()` (ASCII letters suffice for the classified names). -/
def jsToLower (s : String) : String :=
  String.mk (s.data.map Char.toLower)

/-- Replace the first occurrence of `pat` in `s` by `repl`
(JS `s.replace(pat, repl)` with a string pattern). -/
def replaceFirstList (pat repl : List Char) : List Char → List Char
  | [] => if pat.isPrefixOf [] then repl else []
  | c :: rest =>
    if pat.isPrefixOf (c :: rest) then repl ++ (c :: rest).drop pat.length
    else c :: replaceFirstList pat repl rest

/-- String version of `replaceFirstList`. -/
def replaceFirst (s pat repl : String) : String :=
  String.mk (replaceFirstList pat.data repl.data s.data)

/-- Drop the last `n` characters (JS `s.slice(0, -n)` for `0 < n ≤ s.length`). -/
def strDropRight (s : String) (n : Nat) : String :=
  String.mk (s.data.take (s.data.length - n))

/-! ## POSIX path model

Models the node `path` functions on absolute POSIX paths, which is how the
attachment resolver uses them (`workDir`/`dataDir` are absolute). -/

/-- Process path segments of an absolute path: drop empty and `.` segments,
and let `..` pop the previous segment (a `..` at the root vanishes).
The accumulator holds the already-processed segments in reverse. -/
def normAbsSegs (acc : List String) : List String → List String
  | [] => acc.reverse
  | seg :: rest =>
    if seg = "" || seg = "." then normAbsSegs acc rest
    else if seg = ".." then normAbsSegs (acc.drop 1) rest
    else normAbsSegs (seg :: acc) rest

/-- `path.posix.normalize` / `path.resolve` of an absolute path. -/
def normAbs (p : String) : String :=
  "/" ++ String.intercalate "/" (normAbsSegs [] (splitSlash p))

/-- `path.resolve(base, p)` with `base` an absolute directory. -/
def resolveAbs (base p : String) : String :=
  if strStartsWith p "/" then normAbs p else normAbs (base ++ "/" ++ p)

/-- `path.join(dir, name)` with `dir` absolute. -/
def pathJoin (dir name : String) : String :=
  normAbs (dir ++ "/" ++ name)

/-- `path.basename`. -/
def basename (p : String) : String :=
  match ((splitSlash p).filter (fun s => s ≠ "")).getLast? with
  | some s => s
  | none => if strStartsWith p "/" then "/" else ""

/-- Index of the last dot in a character list, if any. -/
def lastDotIdx : List Char → Option Nat
  | [] => none
  | c :: rest =>
    match lastDotIdx rest with
    | some i => some (i + 1)
    | none => if c = '.' then some 0 else none

/-- `path.extname`: extension of the basename, empty when the only dot is the
leading one. -/
def extname (p : String) : String :=
  let b := (basename p).data
  match lastDotIdx b with
  | none => ""
  | some 0 => ""
  | some i => String.mk (b.drop i)

/-! ## Attachment resolver (`src/slack/attachmentResolver.ts`)

File-system and container effects are modelled explicitly: the set of host
files is a list of paths threaded through the computation, and the docker
copy-out primitive is an environment-supplied outcome.  `copyCalls` records
every invocation of the copy-out primitive. -/

/-- Sandbox configuration: host mode, or docker mode with a container name. -/
inductive Sandbox where
  | host : Sandbox
  | docker : String → Sandbox
deriving Repr, DecidableEq

/-- Collaborator outcomes for one `resolveAttachments` call: the host files
that exist, whether the data dir is a git work tree, the docker copy-out
outcome (`none` = success), and the process temp dir (`os.tmpdir()`). -/
structure ResolveEnv where
  fsFiles : List String
  gitDataDir : Bool
  dockerCopyErr : Option String
  tmpdir : String := "/tmp"

/-- State threaded through the per-attachment loop, extended with the
observable `copyCalls` trace `(container, source, destination)`. -/
structure ResolveState where
  fsFiles : List String
  resolved : List FileAttachment
  failures : List (String × String)
  cleanup : List String
  copyCalls : List (String × String × String)
deriving Repr, DecidableEq

/-- `normalizeAttachmentPath`: absolute paths are normalized, relative ones
resolved against the work dir. -/
def normalizeAttachmentPath (candidatePath workDir : String) : String :=
  if strStartsWith candidatePath "/" then normAbs candidatePath
  else resolveAbs workDir candidatePath

/-- `normalizeContainerPath`: absolute paths normalized, relative ones joined
under `/workspace`. -/
def normalizeContainerPath (candidatePath : String) : String :=
  if strStartsWith candidatePath "/" then normAbs candidatePath
  else normAbs ("/workspace" ++ "/" ++ candidatePath)

/-- `mapContainerWorkspaceToHost`: a `/workspace…` path is re-rooted at the
host data dir; anything else maps to `null`. -/
def mapContainerWorkspaceToHost (candidatePath dataDir : String) : Option String :=
  let normalized := normAbs candidatePath
  if !(strStartsWith normalized "/workspace") then none
  else
    let relative := if normalized = "/workspace" then "" else replaceFirst normalized "/workspace/" ""
    some (resolveAbs dataDir relative)

/-- `isTempPath`. -/
def isTempPath (candidatePath : String) : Bool :=
  strStartsWith candidatePath "/tmp/" || strStartsWith candidatePath "/var/tmp/"

/-- `isSafePath`: inside `root` (strictly below it or equal to it). -/
def isSafePath (targetPath root : String) : Bool :=
  let t := normAbs targetPath
  let r := normAbs root
  strStartsWith t (r ++ "/") || t = r

/-- The collision loop of `ensureUniqueDestination`.  The JS loop is unbounded
but each candidate name is distinct, so on a finite file system
`fsFiles.length + 1` iterations always suffice; the fuel only bounds the
model. -/
def ensureUniqueGo (fsFiles : List String) (dir stem ext : String) :
    Nat → Nat → String → String
  | 0, _, candidate => candidate
  | fuel + 1, attempt, candidate =>
    if candidate ∈ fsFiles then
      ensureUniqueGo fsFiles dir stem ext fuel (attempt + 1)
        (pathJoin dir (stem ++ "-" ++ toString (attempt + 1) ++ ext))
    else candidate

/-- `ensureUniqueDestination`: first free `dir/stem(-n)?ext`. -/
def ensureUniqueDestination (fsFiles : List String) (dir filename : String) : String :=
  let base := basename filename
  let ext := extname base
  let stem := if ext = "" then base else strDropRight base ext.data.length
  ensureUniqueGo fsFiles dir stem ext (fsFiles.length + 1) 0 (pathJoin dir base)

/-- The out-of-bounds rejection reason of `resolveAttachments`. -/
def oobReason : String :=
  "Attachment path must be inside the workspace or data directory."

/-- Branches 3–4 of the per-request policy: the docker copy-out branch, else
the out-of-bounds rejection. -/
def resolveDockerOrReject (env : ResolveEnv) (sandbox : Sandbox) (stagingRoot : String)
    (st : ResolveState) (att : FileAttachment) (candidatePath filename : String) :
    ResolveState :=
  match sandbox with
  | .docker name =>
    let containerPath := normalizeContainerPath candidatePath
    let destination := ensureUniqueDestination st.fsFiles stagingRoot filename
    let st := { st with copyCalls := st.copyCalls ++ [(name, containerPath, destination)] }
    match env.dockerCopyErr with
    | some msg => { st with failures := st.failures ++ [(filename, msg)] }
    | none =>
      { st with
        fsFiles := st.fsFiles ++ [destination],
        cleanup := st.cleanup ++ [destination],
        resolved := st.resolved ++
          [{ att with path := destination, filename := some (basename destination) }] }
  | .host => { st with failures := st.failures ++ [(filename, oobReason)] }

/-- Branches 2–4 of the per-request policy: the host temp-staging branch,
else `resolveDockerOrReject`. -/
def resolveFallback (env : ResolveEnv) (sandbox : Sandbox) (stagingRoot : String)
    (st : ResolveState) (att : FileAttachment)
    (candidatePath normalizedCandidate filename : String) : ResolveState :=
  if sandbox = .host && isTempPath normalizedCandidate then
    if normalizedCandidate ∈ st.fsFiles then
      let destination := ensureUniqueDestination st.fsFiles stagingRoot filename
      { st with
        fsFiles := st.fsFiles ++ [destination],
        cleanup := st.cleanup ++ [destination],
        resolved := st.resolved ++
          [{ att with path := destination, filename := some (basename destination) }] }
    else { st with failures := st.failures ++ [(filename, "Temp file not found.")] }
  else resolveDockerOrReject env sandbox stagingRoot st att candidatePath filename

/-- One iteration of the `for (const attachment of attachments)` loop of
`resolveAttachments`. -/
def resolveOne (env : ResolveEnv) (sandbox : Sandbox) (nW nD stagingRoot : String)
    (st : ResolveState) (att : FileAttachment) : ResolveState :=
  let candidatePath := att.path
  let normalizedCandidate := normalizeAttachmentPath candidatePath nW
  let filename := att.filename.getD (basename normalizedCandidate)
  let hostPath : Option String :=
    match sandbox with
    | .docker _ => mapContainerWorkspaceToHost normalizedCandidate nD
    | .host => some normalizedCandidate
  match hostPath with
  | some hp =>
    if isSafePath hp nW || isSafePath hp nD then
      if hp ∈ st.fsFiles then
        { st with resolved := st.resolved ++ [{ att with path := hp, filename := some filename }] }
      else { st with failures := st.failures ++ [(filename, "File not found.")] }
    else resolveFallback env sandbox stagingRoot st att candidatePath normalizedCandidate filename
  | none => resolveFallback env sandbox stagingRoot st att candidatePath normalizedCandidate filename

/-- `resolveAttachments` from `attachmentResolver.ts`. -/
def resolveAttachments (attachments : List FileAttachment) (workDir dataDir : String)
    (sandbox : Sandbox) (env : ResolveEnv) : ResolveState :=
  let nW := normAbs workDir
  let nD := normAbs dataDir
  let useTempStaging := env.gitDataDir ||
    (match sandbox with | .docker _ => true | .host => false)
  let stagingRoot :=
    if useTempStaging then pathJoin env.tmpdir "alfred-attachments"
    else pathJoin nD "attachments"
  attachments.foldl (resolveOne env sandbox nW nD stagingRoot)
    { fsFiles := env.fsFiles, resolved := [], failures := [], cleanup := [], copyCalls := [] }

/-- `fs.unlink` on the explicit file-system model: fails when the path does
not exist. -/
def unlinkFile (fs : List String) (p : String) : Except String (List String) :=
  if p ∈ fs then Except.ok (fs.erase p) else Except.error "ENOENT: no such file or directory"

/-- One step of `cleanupAttachments`: attempt `fs.unlink` and swallow any
failure (the `try { await fs.unlink } catch { return; }` body). -/
def cleanupStep (acc : Except String (List String)) (p : String) : Except String (List String) :=
  match acc with
  | Except.error e => Except.error e
  | Except.ok f =>
    match unlinkFile f p with
    | Except.ok f2 => Except.ok f2
    | Except.error _ => Except.ok f

/-- `cleanupAttachments`: best-effort delete of every staged path; each
per-path `unlink` failure is swallowed by the inner `try/catch`. -/
def cleanupAttachments (fs : List String) (paths : List String) : Except String (List String) :=
  paths.foldl cleanupStep (Except.ok fs)

/-! ## Thread work manager (`src/slack/threadWork.ts`)

The `Map<string, ThreadWorkState>` is modelled as an association list in
insertion order; `AbortController` handles are modelled by numeric ids, and
`abort()` by reporting the signalled id. -/

/-- `MentionEvent` (the fields the work manager observes). -/
structure MentionEvent where
  ts : String
  channel : String
  text : String
deriving Repr, DecidableEq

/-- `ThreadWorkState`. -/
structure ThreadWorkState where
  inProgress : Bool
  abortController : Option Nat := none
  queued : List MentionEvent := []
  busyMessages : List String := []
  activeEventTs : Option String := none
deriving Repr, DecidableEq

/-- The key-to-state map of the manager, in insertion order. -/
def Mgr : Type := List (String × ThreadWorkState)

instance : DecidableEq Mgr := inferInstanceAs (DecidableEq (List (String × ThreadWorkState)))

/-- The empty manager (a fresh `ThreadWorkManager`). -/
def emptyMgr : Mgr := []

/-- `states.get(key)`. -/
def lookupState : Mgr → String → Option ThreadWorkState
  | [], _ => none
  | (k', s') :: rest, k => if k' = k then some s' else lookupState rest k

/-- `states.set(key, state)`: replace in place, or append a new binding. -/
def setState : Mgr → String → ThreadWorkState → Mgr
  | [], k, s => [(k, s)]
  | (k', s') :: rest, k, s =>
    if k' = k then (k, s) :: rest else (k', s') :: setState rest k s

/-- The fresh state `getState` creates on first reference. -/
def freshState : ThreadWorkState :=
  { inProgress := false, queued := [], busyMessages := [] }

namespace ThreadWorkManager

/-- `getState`: lazy creation on first reference to a key. -/
def getState (m : Mgr) (k : String) : ThreadWorkState × Mgr :=
  match lookupState m k with
  | some s => (s, m)
  | none => (freshState, setState m k freshState)

/-- `isBusy`. -/
def isBusy (m : Mgr) (k : String) : Bool × Mgr :=
  let (s, m') := getState m k
  (s.inProgress, m')

/-- `tryBegin`: atomic check-and-set; `false` without side effects when the
key is already running. -/
def tryBegin (m : Mgr) (k : String) (ac : Nat) (ts : Option String) : Bool × Mgr :=
  let (s, m') := getState m k
  if s.inProgress then (false, m')
  else
    (true, setState m' k
      { s with inProgress := true, abortController := some ac, activeEventTs := ts })

/-- `begin`: unconditional set. -/
def begin (m : Mgr) (k : String) (ac : Nat) (ts : Option String) : Mgr :=
  let (s, m') := getState m k
  setState m' k { s with inProgress := true, abortController := some ac, activeEventTs := ts }

/-- `end`: clear the running state and return/reset the backlog. -/
def end_ (m : Mgr) (k : String) : (List MentionEvent × List String) × Mgr :=
  let (s, m') := getState m k
  ((s.queued, s.busyMessages),
    setState m' k
      { s with inProgress := false, abortController := none, activeEventTs := none,
               queued := [], busyMessages := [] })

/-- `queueMention`: append to the backlog (the busy-message ts is only kept
when JS-truthy, i.e. nonempty). -/
def queueMention (m : Mgr) (k : String) (e : MentionEvent) (busyMessageTs : Option String) : Mgr :=
  let (s, m') := getState m k
  let s := { s with queued := s.queued ++ [e] }
  let s :=
    match busyMessageTs with
    | some b => if b = "" then s else { s with busyMessages := s.busyMessages ++ [b] }
    | none => s
  setState m' k s

/-- `hasSeenMention`: the event is the active trigger or already queued.
A missing/empty `eventTs` is JS-falsy and returns `false` before touching
the map. -/
def hasSeenMention (m : Mgr) (k : String) (eventTs : Option String) : Bool × Mgr :=
  match eventTs with
  | none => (false, m)
  | some ts =>
    if ts = "" then (false, m)
    else
      let (s, m') := getState m k
      if s.activeEventTs = some ts then (true, m')
      else (s.queued.any (fun q => q.ts = ts), m')

/-- `requestInterrupt`: signal the active cancellation handle if present.
Returns the result and the signalled handle (`none` = nothing signalled);
the map itself is not modified (`states.get`, no lazy creation). -/
def requestInterrupt (m : Mgr) (k : String) : Bool × Option Nat :=
  match lookupState m k with
  | none => (false, none)
  | some s =>
    match s.abortController with
    | none => (false, none)
    | some ac => (true, some ac)

end ThreadWorkManager

/-- Observable busy-ness of a key (without the lazy-creation side effect). -/
def keyBusy (m : Mgr) (k : String) : Bool :=
  match lookupState m k with
  | some s => s.inProgress
  | none => false

/-- Observable queue of a key. -/
def queuedOf (m : Mgr) (k : String) : List MentionEvent :=
  match lookupState m k with
  | some s => s.queued
  | none => []

/-- A sequence of `tryBegin` calls on one key, returning the list of results. -/
def tryBeginSeq (m : Mgr) (k : String) : List (Nat × Option String) → List Bool
  | [] => []
  | (ac, ts) :: rest =>
    let (b, m') := ThreadWorkManager.tryBegin m k ac ts
    b :: tryBeginSeq m' k rest

/-- Queue a batch of `(event, busyMessageTs)` pairs on one key. -/
def queueAll (m : Mgr) (k : String) : List (MentionEvent × Option String) → Mgr
  | [] => m
  | (e, b) :: rest => queueAll (ThreadWorkManager.queueMention m k e b) k rest

/-- One operation of the `ThreadWorkManager` interface (used to quantify over
arbitrary interaction histories). -/
inductive WorkOp where
  | isBusy (k : String)
  | tryBegin (k : String) (ac : Nat) (ts : Option String)
  | begin (k : String) (ac : Nat) (ts : Option String)
  | end_ (k : String)
  | queueMention (k : String) (e : MentionEvent) (busyMessageTs : Option String)
  | hasSeenMention (k : String) (ts : Option String)
  | requestInterrupt (k : String)

/-- Effect of one operation on the map. -/
def applyOp (m : Mgr) : WorkOp → Mgr
  | .isBusy k => (ThreadWorkManager.isBusy m k).2
  | .tryBegin k ac ts => (ThreadWorkManager.tryBegin m k ac ts).2
  | .begin k ac ts => ThreadWorkManager.begin m k ac ts
  | .end_ k => (ThreadWorkManager.end_ m k).2
  | .queueMention k e b => ThreadWorkManager.queueMention m k e b
  | .hasSeenMention k ts => (ThreadWorkManager.hasSeenMention m k ts).2
  | .requestInterrupt _ => m

/-- Effect of an operation sequence, starting from the empty manager. -/
def applyOps (ops : List WorkOp) : Mgr :=
  ops.foldl applyOp emptyMgr

/-- `flushQueuedMentions` (`mentionHandler.ts`): the mention events it hands
back to `handleAppMention` — the most recently queued one, if any. -/
def flushQueuedMentions (queued : List MentionEvent) : List MentionEvent :=
  if queued.length = 0 then []
  else
    match queued.getLast? with
    | none => []
    | some e => [e]

/-! ## Turn executor (`src/slack/codexResponder.ts`)

The attempt loop of `runCodexAndPost` is embedded as a recursion over the
list of attempt numbers `[1,2,3,4,5]`.  The agent call (streamed or
blocking), the Slack `chat.update` delivery and the cancellation signal are
supplied by an environment record; the per-attempt record list and an
observable trace (final placeholder edits, attachment-resolution and upload
calls) are returned alongside the result.  Rate-limited status edits and
logging are not observable to any claim and are omitted. -/

/-- A JS `Error` as classified by `isAbortError`. -/
structure JsError where
  name : String
  message : String
deriving Repr, DecidableEq

/-- `isAbortError`: the cancellation signal was observed aborted, or the
error name/message classifies as abort/cancel. -/
def isAbortError (e : JsError) (signalAborted : Bool) : Bool :=
  if signalAborted then true
  else
    let nm := jsToLower e.name
    if containsStr nm "abort" then true
    else
      let msg := jsToLower e.message
      containsStr msg "aborted" || containsStr msg "cancelled" || containsStr msg "canceled"

/-- JSON string escaping for `JSON.stringify`. -/
def jsonEscapeChar (c : Char) : List Char :=
  if c = '"' then ['\\', '"']
  else if c = '\\' then ['\\', '\\']
  else if c = '\n' then ['\\', 'n']
  else if c = '\t' then ['\\', 't']
  else if c = '\r' then ['\\', 'r']
  else [c]

/-- Escape a string for JSON serialization. -/
def jsonEscape (s : String) : String :=
  String.mk ((s.data.map jsonEscapeChar).flatten)

mutual

/-- `JSON.stringify` on the JSON value model. -/
def jsonStringify : JsonVal → String
  | .null => "null"
  | .bool true => "true"
  | .bool false => "false"
  | .num n => toString n
  | .str s => "\"" ++ jsonEscape s ++ "\""
  | .arr xs => "[" ++ stringifyArr xs ++ "]"
  | .obj fs => "\x7b" ++ stringifyObj fs ++ "\x7d"

/-- Comma-joined serialization of array elements. -/
def stringifyArr : List JsonVal → String
  | [] => ""
  | [x] => jsonStringify x
  | x :: y :: rest => jsonStringify x ++ "," ++ stringifyArr (y :: rest)

/-- Comma-joined serialization of object fields. -/
def stringifyObj : List (String × JsonVal) → String
  | [] => ""
  | [(k, v)] => "\"" ++ jsonEscape k ++ "\":" ++ jsonStringify v
  | (k, v) :: q :: rest =>
    "\"" ++ jsonEscape k ++ "\":" ++ jsonStringify v ++ "," ++ stringifyObj (q :: rest)

end

/-- JS join of lines with a newline separator. -/
def joinLines : List String → String
  | [] => ""
  | [x] => x
  | x :: y :: rest => x ++ "\n" ++ joinLines (y :: rest)

/-- `buildRetryPrompt`: the base prompt followed by the prior delivery or
validation error and the prior payload (JS-falsy payloads — including a
produced-but-falsy structured output — serialize as the literal `null`). -/
def buildRetryPrompt (basePrompt : String) (error : Option String)
    (lastOutput : Option JsonVal) : String :=
  let outputSnippet :=
    match lastOutput with
    | some v => if jsTruthy v then jsonStringify v else "null"
    | none => "null"
  joinLines
    [basePrompt,
     "",
     "The previous response failed to post to Slack.",
     "Slack error: " ++ error.getD "unknown",
     "Previous response JSON: " ++ outputSnippet,
     "Return a corrected Block Kit JSON object that satisfies the output schema.",
     "Do NOT include fields, accessories, buttons, or placeholder URLs unless the user explicitly asked.",
     "For simple replies, return only: \x7b\"text\": \"...\", \"blocks\":[\x7b\"type\":\"section\",\"text\":\x7b\"type\":\"mrkdwn\",\"text\":\"...\"\x7d\x7d], \"attachments\":[]\x7d"]

/-- The cancellation acknowledgement text. -/
def stopText : String := "Okay — I stopped."

/-- The validation-failure error recorded when `coerceBlockKitMessage`
rejects the payload. -/
def malformedOutputError : String :=
  "Output must be a JSON object with text, blocks, and attachments (array)."

/-- The error recorded when a streamed run yields no final response. -/
def noFinalResponseError : String := "Codex did not return a final response."

/-- The apology prefix of the post-exhaustion fallback edit. -/
def apologyIntro : String := "Sorry — I couldn\x27t post a response. "

/-- Outcome of one agent invocation: the call threw, or it produced a
structured output (`none` = no final response was produced). -/
inductive AgentCall where
  | threw (e : JsError)
  | ok (structured : Option JsonVal)

/-- Collaborator outcomes for one `runCodexAndPost` call. -/
structure ExecEnv where
  agent : Nat → String → AgentCall
  signalAborted : Bool
  updateErr : Nat → Option String
  fallbackUpdateErr : Option String
  workDir : String
  dataDir : String
  sandbox : Sandbox
  resolveEnv : ResolveEnv

/-- The mutable attempt state of the executor (`lastError`, `lastOutput`). -/
structure LoopState where
  lastError : Option String := none
  lastOutput : Option JsonVal := none

/-- Per-attempt record: the prompt sent, and the `lastError`/`lastOutput`
the attempt left behind. -/
structure AttemptRec where
  prompt : String
  errAfter : Option String
  outAfter : Option JsonVal

/-- Result of `runCodexAndPost`. -/
inductive RunResult where
  | success (output : BlockKitMessage)
  | cancelled (text : String)
  | recovered (text : String)
  | thrown (msg : String)

/-- Observable side-effect trace of the executor. -/
structure ExecTrace where
  finalEdits : List String := []
  resolveCalls : Nat := 0
  uploadCalls : Nat := 0
  cleanupCalls : Nat := 0

/-- The prompt for a given attempt: attempt 1 uses the caller prompt,
later attempts the retry prompt built from the attempt state. -/
def promptFor (basePrompt : String) (attempt : Nat) (st : LoopState) : String :=
  if attempt = 1 then basePrompt else buildRetryPrompt basePrompt st.lastError st.lastOutput

/-- The `for (let attempt = 1; attempt <= 5; ...)` loop of
`runCodexAndPost`, recursing over the remaining attempt numbers; the empty
list is the post-loop fallback (apology edit, or a throw when even that
edit fails). -/
def runAttemptsList (env : ExecEnv) (basePrompt : String) :
    List Nat → LoopState → RunResult × List AttemptRec × ExecTrace
  | [], st =>
    let fallbackText := jsTrim (apologyIntro ++ st.lastError.getD "")
    match env.fallbackUpdateErr with
    | none => (.recovered fallbackText, [], { finalEdits := [fallbackText] })
    | some _ => (.thrown (st.lastError.getD "Slack update failed after 5 attempts."), [], {})
  | attempt :: restAttempts, st =>
    let p := promptFor basePrompt attempt st
    match env.agent attempt p with
    | .threw e =>
      if isAbortError e env.signalAborted then
        (.cancelled stopText, [⟨p, st.lastError, st.lastOutput⟩], { finalEdits := [stopText] })
      else
        let st' : LoopState := { st with lastError := some e.message }
        let (r, recs, tr) := runAttemptsList env basePrompt restAttempts st'
        (r, ⟨p, st'.lastError, st'.lastOutput⟩ :: recs, tr)
    | .ok none =>
      let st' : LoopState := { st with lastError := some noFinalResponseError }
      let (r, recs, tr) := runAttemptsList env basePrompt restAttempts st'
      (r, ⟨p, st'.lastError, st'.lastOutput⟩ :: recs, tr)
    | .ok (some v) =>
      match coerceBlockKitMessage v with
      | none =>
        let st' : LoopState := { lastError := some malformedOutputError, lastOutput := some v }
        let (r, recs, tr) := runAttemptsList env basePrompt restAttempts st'
        (r, ⟨p, st'.lastError, st'.lastOutput⟩ :: recs, tr)
      | some out =>
        match env.updateErr attempt with
        | some msg =>
          let st' : LoopState := { lastError := some msg, lastOutput := some v }
          let (r, recs, tr) := runAttemptsList env basePrompt restAttempts st'
          (r, ⟨p, st'.lastError, st'.lastOutput⟩ :: recs, tr)
        | none =>
          let st1 : LoopState := { st with lastOutput := some v }
          let requested := out.attachments.getD []
          if requested.isEmpty then
            (.success out, [⟨p, st1.lastError, st1.lastOutput⟩], { finalEdits := [out.text] })
          else
            let rs := resolveAttachments requested env.workDir env.dataDir env.sandbox env.resolveEnv
            (.success out, [⟨p, st1.lastError, st1.lastOutput⟩],
              { finalEdits := [out.text], resolveCalls := 1,
                uploadCalls := rs.resolved.length,
                cleanupCalls := if rs.cleanup.length = 0 then 0 else 1 })

/-- `runCodexAndPost`: five attempts starting from an empty attempt state. -/
def runCodexAndPost (env : ExecEnv) (basePrompt : String) :
    RunResult × List AttemptRec × ExecTrace :=
  runAttemptsList env basePrompt [1, 2, 3, 4, 5] {}

/-! ## Claim-side predicates and concrete scenarios -/

/-- The C4 claim acceptance condition read literally: `text` is a string,
`blocks` is present, and every entry of the optional `attachments` array has
a string `path`. -/
def c4ClaimAccepts : JsonVal → Bool
  | .obj fields =>
    (match getField fields "text" with | some (.str _) => true | _ => false) &&
    (getField fields "blocks").isSome &&
    (match getField fields "attachments" with
     | none => true
     | some (.arr items) =>
       items.all (fun it =>
         match it with
         | .obj f2 => (match getField f2 "path" with | some (.str _) => true | _ => false)
         | _ => false)
     | some _ => true)
  | _ => false

/-- One attachment entry is well-shaped: an object whose `path` is a string
and whose `filename`/`title`, when present, are strings. -/
def attachmentItemOk : JsonVal → Bool
  | .obj fields =>
    (match getField fields "path" with | some (.str _) => true | _ => false) &&
    (match getField fields "filename" with
     | none => true | some (.str _) => true | some _ => false) &&
    (match getField fields "title" with
     | none => true | some (.str _) => true | some _ => false)
  | _ => false

/-- The amended C4 acceptance condition: `text` is a string, `blocks` is an
array, and `attachments`, when present, is an array of well-shaped entries. -/
def c4AmendedAccepts : JsonVal → Bool
  | .obj fields =>
    (match getField fields "text" with | some (.str _) => true | _ => false) &&
    (match getField fields "blocks" with | some (.arr _) => true | _ => false) &&
    (match getField fields "attachments" with
     | none => true
     | some (.arr items) => items.all attachmentItemOk
     | some _ => false)
  | _ => false

/-- A payload with string `text` and a present (but non-array) `blocks`. -/
def c4Payload : JsonVal := .obj [("text", .str "hi"), ("blocks", .str "oops")]

/-- Every attempt wrote at most this error and this output: the prompts of a
run are chained, each one built from the record of the previous attempt. -/
def RetryChained (bp : String) (recs : List AttemptRec) : Prop :=
  ∀ i r1 r2, recs[i]? = some r1 → recs[i + 1]? = some r2 →
    (∃ e, r1.errAfter = some e) ∧
    r2.prompt = buildRetryPrompt bp r1.errAfter r1.outAfter

/-- Invariant of the work-manager map: a key that is not running holds no
cancellation handle and no active trigger id. -/
def IdleClean (m : Mgr) : Prop :=
  ∀ k s, lookupState m k = some s → s.inProgress = false →
    s.abortController = none ∧ s.activeEventTs = none

/-- A resolver environment with no pre-existing host files. -/
def resolveEnvNoFiles : ResolveEnv :=
  { fsFiles := [], gitDataDir := false, dockerCopyErr := none }

/-- A resolver environment where only `/data/x.txt` exists on the host. -/
def resolveEnvDataX : ResolveEnv :=
  { fsFiles := ["/data/x.txt"], gitDataDir := false, dockerCopyErr := none }

/-- Executor environment whose agent always yields the malformed payload `1`
and whose Slack client succeeds. -/
def envAlwaysMalformed : ExecEnv :=
  { agent := fun _ _ => .ok (some (.num 1)),
    signalAborted := false,
    updateErr := fun _ => none,
    fallbackUpdateErr := none,
    workDir := "/work", dataDir := "/data", sandbox := .host,
    resolveEnv := resolveEnvNoFiles }

/-- Executor environment whose agent always yields the malformed but
JS-falsy payload `0`. -/
def envFalsyPayload : ExecEnv :=
  { envAlwaysMalformed with agent := fun _ _ => .ok (some (.num 0)) }

/-- Executor environment whose agent immediately raises an abort-shaped
error. -/
def envAborting : ExecEnv :=
  { envAlwaysMalformed with
    agent := fun _ _ => .threw { name := "AbortError", message := "The operation was aborted" } }

/-- A concrete mention event. -/
def mention1 : MentionEvent := { ts := "1700000001.000100", channel := "C1", text := "first" }

/-- Another concrete mention event. -/
def mention2 : MentionEvent := { ts := "1700000002.000200", channel := "C1", text := "second" }

/-! ## Map lemmas -/

theorem lookupState_setState (m : Mgr) (k k' : String) (s : ThreadWorkState) :
    lookupState (setState m k s) k' = if k = k' then some s else lookupState m k' := by
  induction m with
  | nil => simp [setState, lookupState]
  | cons hd tl ih =>
    obtain ⟨k0, s0⟩ := hd
    simp only [setState]
    by_cases h0 : k0 = k
    · subst h0
      by_cases h1 : k0 = k' <;> simp [lookupState, h1]
    · by_cases h1 : k0 = k'
      · subst h1
        have hne : ¬(k = k0) := fun h => h0 h.symm
        simp [lookupState, h0, hne]
      · simp [lookupState, h0, h1, ih]

theorem tryBegin_busy (m : Mgr) (k : String) (ac : Nat) (ts : Option String)
    (h : keyBusy m k = true) :
    ThreadWorkManager.tryBegin m k ac ts = (false, m) := by
  unfold keyBusy at h
  unfold ThreadWorkManager.tryBegin ThreadWorkManager.getState
  cases hl : lookupState m k with
  | none => rw [hl] at h; exact absurd h (by simp)
  | some s =>
    rw [hl] at h
    simp only [] at h
    simp [h]

theorem tryBegin_idle (m : Mgr) (k : String) (ac : Nat) (ts : Option String)
    (h : keyBusy m k = false) :
    (ThreadWorkManager.tryBegin m k ac ts).1 = true ∧
    keyBusy (ThreadWorkManager.tryBegin m k ac ts).2 k = true := by
  unfold keyBusy at h ⊢
  unfold ThreadWorkManager.tryBegin ThreadWorkManager.getState
  cases hl : lookupState m k with
  | none => simp [freshState, lookupState_setState]
  | some s =>
    rw [hl] at h
    simp only [] at h
    simp [h, lookupState_setState]

theorem tryBeginSeq_busy (m : Mgr) (k : String) (args : List (Nat × Option String))
    (h : keyBusy m k = true) :
    (tryBeginSeq m k args).count true = 0 := by
  induction args generalizing m with
  | nil => rfl
  | cons a rest ih =>
    obtain ⟨ac, ts⟩ := a
    simp only [tryBeginSeq, tryBegin_busy m k ac ts h]
    simpa using ih m h

/-- C1: `tryBegin` succeeds and marks the key running exactly when the key
was idle; on a busy key it returns `false` and leaves the whole work state
(map included) unchanged; hence any sequence of `tryBegin` calls on one key
with no intervening `end` sees at most one success. -/
theorem c1_tryBegin_mutual_exclusion (m : Mgr) (k : String) (ac : Nat) (ts : Option String) :
    ((ThreadWorkManager.tryBegin m k ac ts).1 = true ↔ keyBusy m k = false)
    ∧ ((ThreadWorkManager.tryBegin m k ac ts).1 = true →
        keyBusy (ThreadWorkManager.tryBegin m k ac ts).2 k = true)
    ∧ (keyBusy m k = true → (ThreadWorkManager.tryBegin m k ac ts).2 = m)
    ∧ (∀ args : List (Nat × Option String), (tryBeginSeq m k args).count true ≤ 1) := by
  refine ⟨?_, ?_, ?_, ?_⟩
  · constructor
    · intro h1
      by_contra hbusy
      have hb : keyBusy m k = true := by
        cases hkb : keyBusy m k
        · exact absurd hkb hbusy
        · rfl
      rw [tryBegin_busy m k ac ts hb] at h1
      exact absurd h1 (by simp)
    · intro hidle
      exact (tryBegin_idle m k ac ts hidle).1
  · intro h1
    have hidle : keyBusy m k = false := by
      by_contra hbusy
      have hb : keyBusy m k = true := by
        cases hkb : keyBusy m k
        · exact absurd hkb hbusy
        · rfl
      rw [tryBegin_busy m k ac ts hb] at h1
      exact absurd h1 (by simp)
    exact (tryBegin_idle m k ac ts hidle).2
  · intro hb
    rw [tryBegin_busy m k ac ts hb]
  · intro args
    cases hkb : keyBusy m k with
    | true => simp [tryBeginSeq_busy m k args hkb]
    | false =>
      cases args with
      | nil => simp [tryBeginSeq]
      | cons a rest =>
        obtain ⟨ac0, ts0⟩ := a
        have h1 := tryBegin_idle m k ac0 ts0 hkb
        simp only [tryBeginSeq]
        cases hres : ThreadWorkManager.tryBegin m k ac0 ts0 with
        | mk b m' =>
          rw [hres] at h1
          simp only at h1
          have hb2 : keyBusy m' k = true := h1.2
          have hz := tryBeginSeq_busy m' k rest hb2
          have hb1 : b = true := h1.1
          subst hb1
          simp [List.count_cons, hz]

/-- C1 witness: on a concretely busy key `tryBegin` leaves the map unchanged,
and a concrete three-call sequence on a fresh key sees at most one success. -/
theorem c1_witness :
    (ThreadWorkManager.tryBegin (ThreadWorkManager.begin emptyMgr "C:1" 7 (some "1.0")) "C:1" 8 none).2
      = ThreadWorkManager.begin emptyMgr "C:1" 7 (some "1.0")
    ∧ (tryBeginSeq emptyMgr "C:1" [(1, none), (2, none), (3, none)]).count true ≤ 1 := by
  exact ⟨(c1_tryBegin_mutual_exclusion (ThreadWorkManager.begin emptyMgr "C:1" 7 (some "1.0"))
            "C:1" 8 none).2.2.1 (by rfl),
         (c1_tryBegin_mutual_exclusion emptyMgr "C:1" 0 none).2.2.2
            [(1, none), (2, none), (3, none)]⟩

/-- C9: `cleanupAttachments` never raises, whatever the staged paths and the
state of the file system: every per-path unlink failure is swallowed and the
fold stays in the `ok` state. -/
theorem c9_cleanup_never_raises (fs paths : List String) :
    ∃ fs', cleanupAttachments fs paths = Except.ok fs' := by
  unfold cleanupAttachments
  suffices h : ∀ (l : List String) (g : List String),
      ∃ fs', l.foldl cleanupStep (Except.ok g) = Except.ok fs' from h paths fs
  intro l
  induction l with
  | nil => intro g; exact ⟨g, rfl⟩
  | cons p rest ih =>
    intro g
    simp only [List.foldl_cons]
    cases h : unlinkFile g p with
    | ok f2 =>
      have : cleanupStep (Except.ok g) p = Except.ok f2 := by simp [cleanupStep, h]
      rw [this]; exact ih f2
    | error e =>
      have : cleanupStep (Except.ok g) p = Except.ok g := by simp [cleanupStep, h]
      rw [this]; exact ih g

theorem end_fst_queued (m : Mgr) (k : String) :
    (ThreadWorkManager.end_ m k).1.1 = queuedOf m k := by
  unfold ThreadWorkManager.end_ ThreadWorkManager.getState queuedOf
  cases hl : lookupState m k <;> simp [freshState]

theorem queuedOf_queueMention (m : Mgr) (k : String) (e : MentionEvent) (b : Option String) :
    queuedOf (ThreadWorkManager.queueMention m k e b) k = queuedOf m k ++ [e] := by
  unfold ThreadWorkManager.queueMention ThreadWorkManager.getState queuedOf
  cases hl : lookupState m k with
  | none =>
    cases b with
    | none => simp [freshState, lookupState_setState]
    | some bs =>
      by_cases hbs : bs = "" <;> simp [freshState, lookupState_setState, hbs]
  | some s =>
    cases b with
    | none => simp [lookupState_setState]
    | some bs =>
      by_cases hbs : bs = "" <;> simp [lookupState_setState, hbs]

theorem queuedOf_queueAll (m : Mgr) (k : String) (pairs : List (MentionEvent × Option String)) :
    queuedOf (queueAll m k pairs) k = queuedOf m k ++ pairs.map Prod.fst := by
  induction pairs generalizing m with
  | nil => simp [queueAll]
  | cons pe rest ih =>
    obtain ⟨e, b⟩ := pe
    simp [queueAll, ih, queuedOf_queueMention, List.append_assoc]

theorem flush_nonempty (l : List MentionEvent) (h : l ≠ []) :
    ∃ last, l.getLast? = some last ∧ flushQueuedMentions l = [last] := by
  have hs : l.getLast?.isSome := List.getLast?_isSome.mpr h
  obtain ⟨last, hlast⟩ := Option.isSome_iff_exists.mp hs
  refine ⟨last, hlast, ?_⟩
  unfold flushQueuedMentions
  have hlen : ¬(l.length = 0) := by simpa [List.length_eq_zero] using h
  simp [hlen, hlast]

/-- C2: when `N ≥ 1` mentions are queued on a busy key with an empty
backlog, `end` hands back exactly that queue in order, and
`flushQueuedMentions` replays exactly one of them — the most recently queued
one; all earlier ones are dropped. -/
theorem c2_coalesce_replay_last (m : Mgr) (k : String)
    (pairs : List (MentionEvent × Option String))
    (_hbusy : keyBusy m k = true) (hq : queuedOf m k = [])
    (hne : pairs ≠ []) :
    (ThreadWorkManager.end_ (queueAll m k pairs) k).1.1 = pairs.map Prod.fst
    ∧ ∃ last, (pairs.map Prod.fst).getLast? = some last ∧
        flushQueuedMentions ((ThreadWorkManager.end_ (queueAll m k pairs) k).1.1) = [last] := by
  have h1 : (ThreadWorkManager.end_ (queueAll m k pairs) k).1.1 = pairs.map Prod.fst := by
    rw [end_fst_queued, queuedOf_queueAll, hq]
    simp
  refine ⟨h1, ?_⟩
  have hne' : pairs.map Prod.fst ≠ [] := by simpa using hne
  obtain ⟨last, hl, hf⟩ := flush_nonempty _ hne'
  exact ⟨last, hl, by rw [h1]; exact hf⟩

/-- C2 witness: two mentions queued on a concretely busy key; `end` returns
both in order and only the second is replayed. -/
theorem c2_witness :
    (ThreadWorkManager.end_
        (queueAll (ThreadWorkManager.begin emptyMgr "C:2" 1 none) "C:2"
          [(mention1, (none : Option String)), (mention2, none)]) "C:2").1.1
      = [(mention1, (none : Option String)), (mention2, none)].map Prod.fst
    ∧ ∃ last,
        ([(mention1, (none : Option String)), (mention2, none)].map Prod.fst).getLast?
            = some last ∧
        flushQueuedMentions
          ((ThreadWorkManager.end_
              (queueAll (ThreadWorkManager.begin emptyMgr "C:2" 1 none) "C:2"
                [(mention1, (none : Option String)), (mention2, none)]) "C:2").1.1) = [last] :=
  c2_coalesce_replay_last (ThreadWorkManager.begin emptyMgr "C:2" 1 none) "C:2"
    [(mention1, (none : Option String)), (mention2, none)] (by rfl) (by rfl) (by simp)

theorem IdleClean_empty : IdleClean emptyMgr := by
  intro k s h
  simp [emptyMgr, lookupState] at h

theorem IdleClean_setState (m : Mgr) (k : String) (s : ThreadWorkState)
    (hm : IdleClean m)
    (hs : s.inProgress = false → s.abortController = none ∧ s.activeEventTs = none) :
    IdleClean (setState m k s) := by
  intro k' s' hl hidle
  rw [lookupState_setState] at hl
  by_cases hk : k = k'
  · rw [if_pos hk] at hl
    cases hl
    exact hs hidle
  · rw [if_neg hk] at hl
    exact hm k' s' hl hidle

theorem IdleClean_getState (m : Mgr) (k : String) (hm : IdleClean m) :
    IdleClean (ThreadWorkManager.getState m k).2 ∧
    ((ThreadWorkManager.getState m k).1.inProgress = false →
      (ThreadWorkManager.getState m k).1.abortController = none ∧
      (ThreadWorkManager.getState m k).1.activeEventTs = none) := by
  unfold ThreadWorkManager.getState
  cases hl : lookupState m k with
  | some s =>
    refine ⟨hm, ?_⟩
    exact hm k s hl
  | none =>
    refine ⟨IdleClean_setState m k freshState hm (by simp [freshState]), ?_⟩
    simp [freshState]

theorem IdleClean_applyOp (m : Mgr) (op : WorkOp) (hm : IdleClean m) :
    IdleClean (applyOp m op) := by
  cases op with
  | isBusy k =>
    have h := IdleClean_getState m k hm
    simpa [applyOp, ThreadWorkManager.isBusy] using h.1
  | tryBegin k ac ts =>
    have h := IdleClean_getState m k hm
    simp only [applyOp, ThreadWorkManager.tryBegin]
    by_cases hip : (ThreadWorkManager.getState m k).1.inProgress
    · simpa [hip] using h.1
    · simp only [hip]
      simp only [Bool.false_eq_true, if_false]
      exact IdleClean_setState _ k _ h.1 (by intro hcontra; simp at hcontra)
  | begin k ac ts =>
    have h := IdleClean_getState m k hm
    simp only [applyOp, ThreadWorkManager.begin]
    exact IdleClean_setState _ k _ h.1 (by intro hcontra; simp at hcontra)
  | end_ k =>
    have h := IdleClean_getState m k hm
    simp only [applyOp, ThreadWorkManager.end_]
    exact IdleClean_setState _ k _ h.1 (by intro _; exact ⟨rfl, rfl⟩)
  | queueMention k e b =>
    have h := IdleClean_getState m k hm
    simp only [applyOp, ThreadWorkManager.queueMention]
    cases b with
    | none => exact IdleClean_setState _ k _ h.1 (by intro hip; exact h.2 hip)
    | some bs =>
      by_cases hbs : bs = "" <;> simp only [hbs, if_pos, if_neg, reduceIte] <;>
        exact IdleClean_setState _ k _ h.1 (by intro hip; exact h.2 hip)
  | hasSeenMention k ts =>
    have h := IdleClean_getState m k hm
    simp only [applyOp, ThreadWorkManager.hasSeenMention]
    cases ts with
    | none => exact hm
    | some t =>
      by_cases ht : t = ""
      · simpa [ht] using hm
      · simp only [ht, if_neg, reduceIte]
        by_cases hact : (ThreadWorkManager.getState m k).1.activeEventTs = some t <;>
          simpa [hact] using h.1
  | requestInterrupt k => exact hm

theorem IdleClean_applyOps (ops : List WorkOp) : IdleClean (applyOps ops) := by
  unfold applyOps
  suffices h : ∀ m, IdleClean m → IdleClean (ops.foldl applyOp m) from h emptyMgr IdleClean_empty
  induction ops with
  | nil => intro m hm; exact hm
  | cons op rest ih =>
    intro m hm
    simp only [List.foldl_cons]
    exact ih (applyOp m op) (IdleClean_applyOp m op hm)

/-- C10: after any operation sequence from a fresh manager, a key that is
not busy holds no cancellation handle and no active trigger id, and
`requestInterrupt` on it returns `false` and signals nothing. -/
theorem c10_idle_keys_hold_no_handles (ops : List WorkOp) (k : String)
    (hidle : keyBusy (applyOps ops) k = false) :
    (∀ s, lookupState (applyOps ops) k = some s →
        s.abortController = none ∧ s.activeEventTs = none)
    ∧ ThreadWorkManager.requestInterrupt (applyOps ops) k = (false, none) := by
  have hinv := IdleClean_applyOps ops
  have hfields : ∀ s, lookupState (applyOps ops) k = some s →
      s.abortController = none ∧ s.activeEventTs = none := by
    intro s hl
    have hip : s.inProgress = false := by
      unfold keyBusy at hidle
      rw [hl] at hidle
      exact hidle
    exact hinv k s hl hip
  refine ⟨hfields, ?_⟩
  unfold ThreadWorkManager.requestInterrupt
  cases hl : lookupState (applyOps ops) k with
  | none => rfl
  | some s =>
    have hac := (hfields s hl).1
    simp [hac]

/-- C10 witness: a key that ran a turn and ended is idle again; its state
holds no handle and `requestInterrupt` signals nothing. -/
theorem c10_witness :
    (∀ s, lookupState (applyOps [.begin "C:10" 3 (some "9.0"), .end_ "C:10"]) "C:10" = some s →
        s.abortController = none ∧ s.activeEventTs = none)
    ∧ ThreadWorkManager.requestInterrupt
        (applyOps [.begin "C:10" 3 (some "9.0"), .end_ "C:10"]) "C:10" = (false, none) :=
  c10_idle_keys_hold_no_handles [.begin "C:10" 3 (some "9.0"), .end_ "C:10"] "C:10" (by rfl)

/-- C3: if the agent produces a payload on every attempt and every payload
fails validation, the executor performs exactly 5 attempts, then edits the
placeholder to the apology containing the last recorded error and returns it
as a recovered failure (given the fallback edit is delivered). -/
theorem c3_malformed_five_attempts_apology (env : ExecEnv) (basePrompt : String)
    (payload : Nat → JsonVal)
    (hagent : ∀ k p, env.agent k p = .ok (some (payload k)))
    (hmal : ∀ k, coerceBlockKitMessage (payload k) = none)
    (hfb : env.fallbackUpdateErr = none) :
    (runCodexAndPost env basePrompt).2.1.length = 5
    ∧ (runCodexAndPost env basePrompt).1 =
        .recovered (jsTrim (apologyIntro ++ malformedOutputError))
    ∧ (runCodexAndPost env basePrompt).2.2.finalEdits =
        [jsTrim (apologyIntro ++ malformedOutputError)]
    ∧ containsStr (jsTrim (apologyIntro ++ malformedOutputError)) malformedOutputError
        = true := by
  have hrun : runCodexAndPost env basePrompt =
      (.recovered (jsTrim (apologyIntro ++ malformedOutputError)),
        [⟨basePrompt, some malformedOutputError, some (payload 1)⟩,
         ⟨buildRetryPrompt basePrompt (some malformedOutputError) (some (payload 1)),
           some malformedOutputError, some (payload 2)⟩,
         ⟨buildRetryPrompt basePrompt (some malformedOutputError) (some (payload 2)),
           some malformedOutputError, some (payload 3)⟩,
         ⟨buildRetryPrompt basePrompt (some malformedOutputError) (some (payload 3)),
           some malformedOutputError, some (payload 4)⟩,
         ⟨buildRetryPrompt basePrompt (some malformedOutputError) (some (payload 4)),
           some malformedOutputError, some (payload 5)⟩],
        { finalEdits := [jsTrim (apologyIntro ++ malformedOutputError)] }) := by
    simp [runCodexAndPost, runAttemptsList, hagent, hmal, hfb, promptFor]
  refine ⟨?_, ?_, ?_, by decide⟩
  · rw [hrun]; rfl
  · rw [hrun]
  · rw [hrun]

/-- C3 witness: the concrete always-malformed environment drives exactly
five attempts. -/
theorem c3_witness : (runCodexAndPost envAlwaysMalformed "hi").2.1.length = 5 :=
  (c3_malformed_five_attempts_apology envAlwaysMalformed "hi" (fun _ => .num 1)
    (fun _ _ => rfl) (fun _ => rfl) rfl).1

/-- C5: if the agent call of any attempt raises a cancellation-shaped
failure, the executor immediately edits the placeholder to the stop
acknowledgement and returns: exactly one attempt record is produced whatever
attempts remained, and no attachment resolution, upload or cleanup happens. -/
theorem c5_cancellation_stops_immediately (env : ExecEnv) (basePrompt : String)
    (attempt : Nat) (restAttempts : List Nat) (st : LoopState) (e : JsError)
    (hthrow : env.agent attempt (promptFor basePrompt attempt st) = .threw e)
    (habort : isAbortError e env.signalAborted = true) :
    runAttemptsList env basePrompt (attempt :: restAttempts) st =
      (.cancelled stopText,
        [⟨promptFor basePrompt attempt st, st.lastError, st.lastOutput⟩],
        { finalEdits := [stopText], resolveCalls := 0, uploadCalls := 0, cleanupCalls := 0 }) := by
  simp [runAttemptsList, hthrow, habort]

/-- C5 witness: a concrete abort-shaped failure on attempt 1 stops the run
with the stop acknowledgement as the only placeholder edit. -/
theorem c5_witness :
    runAttemptsList envAborting "hi" [1, 2, 3, 4, 5] {} =
      (.cancelled stopText,
        [⟨promptFor "hi" 1 {}, none, none⟩],
        { finalEdits := [stopText], resolveCalls := 0, uploadCalls := 0, cleanupCalls := 0 }) :=
  c5_cancellation_stops_immediately envAborting "hi" 1 [2, 3, 4, 5] {}
    { name := "AbortError", message := "The operation was aborted" } rfl (by decide)

theorem coerceAttachmentItem_isSome (it : JsonVal) :
    (coerceAttachmentItem it).isSome = attachmentItemOk it := by
  cases it <;> simp only [coerceAttachmentItem, attachmentItemOk] <;> try rfl
  case obj fields =>
    cases hp : getField fields "path" with
    | none => rfl
    | some v =>
      cases v <;> try rfl
      case str p =>
        cases hf : getField fields "filename" with
        | none =>
          cases ht : getField fields "title" with
          | none => rfl
          | some w => cases w <;> rfl
        | some w =>
          cases w <;> try rfl
          case str f =>
            cases ht : getField fields "title" with
            | none => rfl
            | some u => cases u <;> rfl

theorem coerceAttachmentList_isSome (items : List JsonVal) :
    (coerceAttachmentList items).isSome = items.all attachmentItemOk := by
  induction items with
  | nil => rfl
  | cons x rest ih =>
    simp only [coerceAttachmentList, List.all_cons]
    cases hx : coerceAttachmentItem x with
    | none =>
      have hok := coerceAttachmentItem_isSome x
      rw [hx] at hok
      simp only [Option.isSome_none] at hok
      simp [← hok]
    | some a =>
      have hok := coerceAttachmentItem_isSome x
      rw [hx] at hok
      simp only [Option.isSome_some] at hok
      simp [← hok, ih]

/-- C4 (amended): `coerceBlockKitMessage` accepts a payload exactly when
`text` is a string, `blocks` is an array, and the optional `attachments`
value is an array whose entries are objects with a string `path` and
string-valued `filename`/`title` when present.  (The weaker claim conditions "blocks
is present" and "each attachment has a string path" conditions are not
sufficient.) -/
theorem c4_validator_amended (payload : JsonVal) :
    (coerceBlockKitMessage payload).isSome = c4AmendedAccepts payload := by
  cases payload <;> simp only [coerceBlockKitMessage, c4AmendedAccepts] <;> try rfl
  case obj fields =>
    cases htext : getField fields "text" with
    | none => rfl
    | some v =>
      cases v <;> try rfl
      case str t =>
        cases hblocks : getField fields "blocks" with
        | none => rfl
        | some w =>
          cases w <;> try rfl
          case arr bs =>
            cases hatt : getField fields "attachments" with
            | none => rfl
            | some u =>
              cases u <;> try rfl
              case arr items =>
                simp [coerceAttachmentList_isSome items]

/-- C4 counterexample: a payload whose `text` is a string and whose `blocks`
field is present (but not an array) satisfies the acceptance
condition verbatim, yet `coerceBlockKitMessage` rejects it as malformed. -/
theorem c4_counterexample :
    c4ClaimAccepts c4Payload = true ∧ coerceBlockKitMessage c4Payload = none :=
  ⟨rfl, rfl⟩

/-- C6 (amended): in direct (host) sandbox mode, a request whose normalized
path lies outside both the workspace root and the data root and is not a
temp path is rejected with the out-of-bounds reason; nothing is resolved,
staged or copied for it.  (In isolated mode such a path instead reaches the
container copy-out branch — see the counterexample.) -/
theorem c6_out_of_bounds_rejected_host (att : FileAttachment) (workDir dataDir : String)
    (env : ResolveEnv)
    (hW : isSafePath (normalizeAttachmentPath att.path (normAbs workDir)) (normAbs workDir)
        = false)
    (hD : isSafePath (normalizeAttachmentPath att.path (normAbs workDir)) (normAbs dataDir)
        = false)
    (hT : isTempPath (normalizeAttachmentPath att.path (normAbs workDir)) = false) :
    resolveAttachments [att] workDir dataDir .host env =
      { fsFiles := env.fsFiles, resolved := [], cleanup := [], copyCalls := [],
        failures := [(att.filename.getD
            (basename (normalizeAttachmentPath att.path (normAbs workDir))), oobReason)] } := by
  simp [resolveAttachments, resolveOne, resolveFallback, resolveDockerOrReject, hW, hD, hT]

/-- C6 witness: `/etc/passwd` in host mode is rejected with the
out-of-bounds reason and nothing is resolved or staged. -/
theorem c6_witness :
    resolveAttachments [{ path := "/etc/passwd" }] "/work" "/data" .host resolveEnvNoFiles =
      { fsFiles := [], resolved := [], cleanup := [], copyCalls := [],
        failures := [("passwd", oobReason)] } :=
  c6_out_of_bounds_rejected_host { path := "/etc/passwd" } "/work" "/data" resolveEnvNoFiles
    rfl rfl rfl

/-- C6 counterexample: in isolated (docker) mode the same out-of-bounds path
`/etc/passwd` is not rejected with the out-of-bounds reason: the container
copy-out primitive is invoked for it and, when the copy succeeds, the file
is staged and accepted. -/
theorem c6_counterexample :
    (resolveAttachments [{ path := "/etc/passwd" }] "/work" "/data" (.docker "alfred")
        resolveEnvNoFiles).failures = []
    ∧ (resolveAttachments [{ path := "/etc/passwd" }] "/work" "/data" (.docker "alfred")
        resolveEnvNoFiles).resolved =
        [{ path := "/tmp/alfred-attachments/passwd", filename := some "passwd" }]
    ∧ (resolveAttachments [{ path := "/etc/passwd" }] "/work" "/data" (.docker "alfred")
        resolveEnvNoFiles).copyCalls =
        [("alfred", "/etc/passwd", "/tmp/alfred-attachments/passwd")] :=
  ⟨rfl, rfl, rfl⟩

/-- C7 counterexample: in isolated (docker) mode the request
`/workspace/x.txt` never invokes the copy-out primitive: the path is mapped
onto the host data root and (when the mapped host file exists) accepted
directly, with no staging and no cleanup. -/
theorem c7_counterexample :
    (resolveAttachments [{ path := "/workspace/x.txt" }] "/work" "/data" (.docker "alfred")
        resolveEnvDataX).copyCalls = []
    ∧ (resolveAttachments [{ path := "/workspace/x.txt" }] "/work" "/data" (.docker "alfred")
        resolveEnvDataX).resolved = [{ path := "/data/x.txt", filename := some "x.txt" }]
    ∧ (resolveAttachments [{ path := "/workspace/x.txt" }] "/work" "/data" (.docker "alfred")
        resolveEnvDataX).cleanup = [] :=
  ⟨rfl, rfl, rfl⟩

/-- C7 (amended): in isolated (docker) mode an absolute `/workspace/…` path
is mapped onto the host data root and accepted directly without copy-out or
staging; the copy-out primitive is invoked — exactly once, with the path
mapped onto the workspace mount of the container as source and a host staging
path as destination, with cleanup scheduled and the attachment accepted —
for a workspace-relative request such as `x.txt`. -/
theorem c7_docker_copyout_behaviour :
    resolveAttachments [{ path := "/workspace/x.txt" }] "/work" "/data" (.docker "alfred")
        resolveEnvDataX =
      { fsFiles := ["/data/x.txt"],
        resolved := [{ path := "/data/x.txt", filename := some "x.txt" }],
        failures := [], cleanup := [], copyCalls := [] }
    ∧ resolveAttachments [{ path := "x.txt" }] "/work" "/data" (.docker "alfred")
        resolveEnvNoFiles =
      { fsFiles := ["/tmp/alfred-attachments/x.txt"],
        resolved := [{ path := "/tmp/alfred-attachments/x.txt", filename := some "x.txt" }],
        failures := [], cleanup := ["/tmp/alfred-attachments/x.txt"],
        copyCalls := [("alfred", "/workspace/x.txt", "/tmp/alfred-attachments/x.txt")] } :=
  ⟨rfl, rfl⟩

theorem isSubstrAt_append (n h x : List Char) (hp : isSubstrAt n h = true) :
    isSubstrAt n (h ++ x) = true := by
  induction n generalizing h with
  | nil => rfl
  | cons a as ih =>
    cases h with
    | nil => simp [isSubstrAt] at hp
    | cons b bs =>
      simp only [isSubstrAt, Bool.and_eq_true, decide_eq_true_eq] at hp
      simp only [List.cons_append, isSubstrAt, Bool.and_eq_true, decide_eq_true_eq]
      exact ⟨hp.1, ih bs hp.2⟩

theorem isSubstrAt_self (n t : List Char) : isSubstrAt n (n ++ t) = true := by
  induction n with
  | nil => rfl
  | cons a as ih =>
    simp only [List.cons_append, isSubstrAt, Bool.and_eq_true, decide_eq_true_eq]
    exact ⟨trivial, ih⟩

theorem isSubstrAt_nil_eq (n : List Char) (h : isSubstrAt n [] = true) : n = [] := by
  cases n with
  | nil => rfl
  | cons a as => simp [isSubstrAt] at h

theorem subStr_append_left (n x h : List Char) (hs : subStr n h = true) :
    subStr n (x ++ h) = true := by
  induction x with
  | nil => simpa using hs
  | cons c cs ih =>
    simp only [List.cons_append, subStr, Bool.or_eq_true]
    exact Or.inr ih

theorem subStr_self_append (n t : List Char) : subStr n (n ++ t) = true := by
  cases n with
  | nil =>
    cases t with
    | nil => rfl
    | cons c r => simp [subStr, isSubstrAt]
  | cons a as =>
    simp only [List.cons_append, subStr, Bool.or_eq_true]
    exact Or.inl (isSubstrAt_self (a :: as) t)

theorem subStr_append_right (n h x : List Char) (hs : subStr n h = true) :
    subStr n (h ++ x) = true := by
  induction h with
  | nil =>
    have hn := isSubstrAt_nil_eq n (by simpa [subStr] using hs)
    subst hn
    simpa using subStr_self_append [] x
  | cons c cs ih =>
    simp only [subStr, Bool.or_eq_true] at hs
    simp only [List.cons_append, subStr, Bool.or_eq_true]
    cases hs with
    | inl hL => exact Or.inl (isSubstrAt_append n (c :: cs) x hL)
    | inr hR => exact Or.inr (ih hR)

theorem containsStr_append_left (x h n : String) (hc : containsStr h n = true) :
    containsStr (x ++ h) n = true := by
  unfold containsStr at hc ⊢
  rw [String.data_append]
  exact subStr_append_left _ _ _ hc

theorem containsStr_append_right (h x n : String) (hc : containsStr h n = true) :
    containsStr (h ++ x) n = true := by
  unfold containsStr at hc ⊢
  rw [String.data_append]
  exact subStr_append_right _ _ _ hc

theorem containsStr_self (n : String) : containsStr n n = true := by
  unfold containsStr
  simpa using subStr_self_append n.data []

theorem joinLines_contains (xs : List String) (x n : String) (hmem : x ∈ xs)
    (hc : containsStr x n = true) : containsStr (joinLines xs) n = true := by
  induction xs with
  | nil => cases hmem
  | cons y rest ih =>
    cases hmem with
    | head =>
      cases rest with
      | nil => simpa [joinLines] using hc
      | cons z zs =>
        show containsStr (x ++ "\n" ++ joinLines (z :: zs)) n = true
        exact containsStr_append_right _ _ _ (containsStr_append_right _ _ _ hc)
    | tail _ hmem' =>
      cases rest with
      | nil => cases hmem'
      | cons z zs =>
        show containsStr (y ++ "\n" ++ joinLines (z :: zs)) n = true
        exact containsStr_append_left _ _ _ (ih hmem')

theorem buildRetryPrompt_contains_error (bp e : String) (o : Option JsonVal) :
    containsStr (buildRetryPrompt bp (some e) o) e = true := by
  unfold buildRetryPrompt
  simp only [Option.getD_some]
  exact joinLines_contains _ ("Slack error: " ++ e) e (by simp)
    (containsStr_append_left "Slack error: " e e (containsStr_self e))

theorem buildRetryPrompt_contains_output (bp : String) (er : Option String) (v : JsonVal)
    (hv : jsTruthy v = true) :
    containsStr (buildRetryPrompt bp er (some v)) (jsonStringify v) = true := by
  unfold buildRetryPrompt
  simp only [hv, if_true]
  exact joinLines_contains _ ("Previous response JSON: " ++ jsonStringify v) (jsonStringify v)
    (by simp)
    (containsStr_append_left "Previous response JSON: " _ _ (containsStr_self _))

set_option maxRecDepth 8000

theorem runAttemptsList_head (env : ExecEnv) (bp : String) (a : Nat) (rest : List Nat)
    (st : LoopState) :
    ∃ r tail,
      (runAttemptsList env bp (a :: rest) st).2.1 = r :: tail ∧
      r.prompt = promptFor bp a st ∧
      (tail = [] ∨
        ∃ st' : LoopState,
          tail = (runAttemptsList env bp rest st').2.1 ∧
          r.errAfter = st'.lastError ∧ r.outAfter = st'.lastOutput ∧
          ∃ msg, st'.lastError = some msg) := by
  cases hag : env.agent a (promptFor bp a st) with
  | threw e =>
    by_cases hab : isAbortError e env.signalAborted = true
    · exact ⟨⟨promptFor bp a st, st.lastError, st.lastOutput⟩, [],
        by simp [runAttemptsList, hag, hab], rfl, Or.inl rfl⟩
    · rcases hX : runAttemptsList env bp rest { st with lastError := some e.message }
        with ⟨r0, recs0, tr0⟩
      exact ⟨⟨promptFor bp a st, some e.message, st.lastOutput⟩, recs0,
        by simp [runAttemptsList, hag, hab, hX], rfl,
        Or.inr ⟨{ st with lastError := some e.message }, by simp [hX], rfl, rfl,
          ⟨e.message, rfl⟩⟩⟩
  | ok os =>
    cases os with
    | none =>
      rcases hX : runAttemptsList env bp rest { st with lastError := some noFinalResponseError }
        with ⟨r0, recs0, tr0⟩
      exact ⟨⟨promptFor bp a st, some noFinalResponseError, st.lastOutput⟩, recs0,
        by simp [runAttemptsList, hag, hX], rfl,
        Or.inr ⟨{ st with lastError := some noFinalResponseError }, by simp [hX], rfl, rfl,
          ⟨noFinalResponseError, rfl⟩⟩⟩
    | some v =>
      cases hco : coerceBlockKitMessage v with
      | none =>
        rcases hX : runAttemptsList env bp rest
            { lastError := some malformedOutputError, lastOutput := some v }
          with ⟨r0, recs0, tr0⟩
        exact ⟨⟨promptFor bp a st, some malformedOutputError, some v⟩, recs0,
          by simp [runAttemptsList, hag, hco, hX], rfl,
          Or.inr ⟨{ lastError := some malformedOutputError, lastOutput := some v },
            by simp [hX], rfl, rfl, ⟨malformedOutputError, rfl⟩⟩⟩
      | some out =>
        cases hup : env.updateErr a with
        | some msg =>
          rcases hX : runAttemptsList env bp rest
              { lastError := some msg, lastOutput := some v }
            with ⟨r0, recs0, tr0⟩
          exact ⟨⟨promptFor bp a st, some msg, some v⟩, recs0,
            by simp [runAttemptsList, hag, hco, hup, hX], rfl,
            Or.inr ⟨{ lastError := some msg, lastOutput := some v },
              by simp [hX], rfl, rfl, ⟨msg, rfl⟩⟩⟩
        | none =>
          by_cases hreq : (out.attachments.getD []).isEmpty = true
          · exact ⟨⟨promptFor bp a st, st.lastError, some v⟩, [],
              by simp [runAttemptsList, hag, hco, hup, hreq], rfl, Or.inl rfl⟩
          · exact ⟨⟨promptFor bp a st, st.lastError, some v⟩, [],
              by simp [runAttemptsList, hag, hco, hup, hreq], rfl, Or.inl rfl⟩

theorem runAttemptsList_chain (env : ExecEnv) (bp : String) :
    ∀ (l : List Nat) (st : LoopState), (∀ x ∈ l.tail, x ≠ 1) →
      RetryChained bp (runAttemptsList env bp l st).2.1 := by
  intro l
  induction l with
  | nil =>
    intro st _ i r1 r2 h1 h2
    simp [runAttemptsList] at h1
    split at h1 <;> simp_all
  | cons a rest ih =>
    intro st htail
    obtain ⟨r, tail, hrecs, _hprompt, hcase⟩ := runAttemptsList_head env bp a rest st
    intro i r1 r2 h1 h2
    rw [hrecs] at h1 h2
    rcases hcase with htail0 | ⟨st', htaileq, herr, hout, msg, hmsg⟩
    · subst htail0
      cases i with
      | zero => simp at h2
      | succ j => simp at h1
    · cases i with
      | zero =>
        simp only [List.getElem?_cons_zero, Option.some.injEq] at h1
        simp only [List.getElem?_cons_succ, List.getElem?_cons_zero] at h2
        subst h1
        cases rest with
        | nil =>
          rw [htaileq] at h2
          simp [runAttemptsList] at h2
          split at h2 <;> simp_all
        | cons b rest' =>
          obtain ⟨rb, tb, hrecsb, hpromptb, _⟩ := runAttemptsList_head env bp b rest' st'
          rw [htaileq, hrecsb] at h2
          simp only [List.getElem?_cons_zero, Option.some.injEq] at h2
          subst h2
          have hb1 : b ≠ 1 := htail b (by simp)
          refine ⟨⟨msg, herr.trans hmsg⟩, ?_⟩
          rw [hpromptb, promptFor, if_neg hb1, herr, hout]
      | succ j =>
        simp only [List.getElem?_cons_succ] at h1 h2
        rcases hcase2 : rest with _ | ⟨b, rest'⟩
        · subst hcase2
          rw [htaileq] at h1
          simp [runAttemptsList] at h1
          split at h1 <;> simp_all
        · have htail' : ∀ x ∈ rest.tail, x ≠ 1 := by
            intro x hx
            refine htail x ?_
            rw [hcase2] at hx ⊢
            exact List.mem_cons_of_mem b hx
          have hchain := ih st' htail'
          rw [htaileq] at h1 h2
          exact hchain j r1 r2 h1 h2

/-- C8 (amended): for every attempt `k > 1` of a run, the prompt contains
verbatim the error text recorded on attempt `k−1`, and it contains the JSON
serialization of the attempt `k−1` payload whenever one was produced and is
JS-truthy (a falsy payload such as `0` is rendered as the literal `null` —
see the counterexample). -/
theorem c8_retry_prompt_amended (env : ExecEnv) (basePrompt : String)
    (i : Nat) (r1 r2 : AttemptRec)
    (h1 : (runCodexAndPost env basePrompt).2.1[i]? = some r1)
    (h2 : (runCodexAndPost env basePrompt).2.1[i + 1]? = some r2) :
    (∃ e, r1.errAfter = some e ∧ containsStr r2.prompt e = true)
    ∧ (∀ v, r1.outAfter = some v → jsTruthy v = true →
        containsStr r2.prompt (jsonStringify v) = true) := by
  have htail : ∀ x ∈ ([1, 2, 3, 4, 5] : List Nat).tail, x ≠ 1 := by decide
  have hchain := runAttemptsList_chain env basePrompt [1, 2, 3, 4, 5] {} htail
  obtain ⟨⟨e, he⟩, hp⟩ := hchain i r1 r2 h1 h2
  refine ⟨⟨e, he, ?_⟩, ?_⟩
  · rw [hp, he]
    exact buildRetryPrompt_contains_error basePrompt e r1.outAfter
  · intro v hv htr
    rw [hp, hv]
    exact buildRetryPrompt_contains_output basePrompt r1.errAfter v htr

/-- C8 witness: in the concrete always-malformed run, the attempt-2 prompt
contains the error recorded on attempt 1, and the serialization of the
(truthy) attempt-1 payload. -/
theorem c8_witness :
    (∃ e, (⟨"hi", some malformedOutputError, some (JsonVal.num 1)⟩ : AttemptRec).errAfter
          = some e ∧
        containsStr
          (⟨buildRetryPrompt "hi" (some malformedOutputError) (some (JsonVal.num 1)),
            some malformedOutputError, some (JsonVal.num 1)⟩ : AttemptRec).prompt e = true)
    ∧ (∀ v, (⟨"hi", some malformedOutputError, some (JsonVal.num 1)⟩ : AttemptRec).outAfter
          = some v → jsTruthy v = true →
        containsStr
          (⟨buildRetryPrompt "hi" (some malformedOutputError) (some (JsonVal.num 1)),
            some malformedOutputError, some (JsonVal.num 1)⟩ : AttemptRec).prompt
          (jsonStringify v) = true) :=
  c8_retry_prompt_amended envAlwaysMalformed "hi" 0
    ⟨"hi", some malformedOutputError, some (JsonVal.num 1)⟩
    ⟨buildRetryPrompt "hi" (some malformedOutputError) (some (JsonVal.num 1)),
      some malformedOutputError, some (JsonVal.num 1)⟩
    rfl rfl

/-- C8 counterexample: the agent produced the malformed payload `0` on
attempt 1 (`JSON.stringify` renders it as `"0"`), yet the attempt-2 prompt
does not contain that serialization — the JS-falsy payload is rendered as
the literal `null`. -/
theorem c8_counterexample :
    ((runCodexAndPost envFalsyPayload "hi").2.1.map AttemptRec.outAfter)[0]?
        = some (some (JsonVal.num 0))
    ∧ jsonStringify (JsonVal.num 0) = "0"
    ∧ ((runCodexAndPost envFalsyPayload "hi").2.1.map
          (fun r => containsStr r.prompt "0"))[1]? = some false :=
  ⟨rfl, rfl, rfl⟩

end Alfred
